import Mathlib

/-!
Verification of the QuestionableBudget single-page budgeting application
(single React source file).  The domain store and aggregation engine are
shallowly embedded here:

* JS numbers (account balances, category budgets, transaction amounts) are
  modelled as exact rationals (`Rat`); the source performs only `+`, `-`,
  `*`, `/`, `Math.abs` and comparisons on them.
* The random id generator `genId` is modelled nondeterministically: every
  operation that calls `genId` takes the generated id as an explicit
  argument.
* Mutators (`addAccount`, `addCategory`, `budgetCategory`, `addTransaction`)
  are the pure state transformers from the `setData` callbacks in the
  source; the snapshot `{accounts, categories, transactions}` is a record
  of three lists.
* JS `Array.prototype.sort` with comparator `(a, b) => b.value - a.value`
  is modelled as a stable insertion sort with respect to the relation
  comparator-result-nonpositive, i.e. `b.value ≤ a.value`.
* The browser JSON layer (`JSON.stringify` / `JSON.parse`) is modelled as
  an exact tree codec on a `Json` inductive: a successful parse of a
  stringified value returns a structurally identical tree, and a parse
  failure is represented by `Option.none`.  Reading a field of the parsed
  object is a lookup by name, so field order is irrelevant.
-/

/-- Account record: created by addAccount, balance mutated by addTransaction. -/
structure Account where
  id : String
  name : String
  balance : Rat
deriving DecidableEq, Repr

/-- Budget category record: budgeted is a running total adjusted by budgetCategory. -/
structure Category where
  id : String
  name : String
  budgeted : Rat
deriving DecidableEq, Repr

/-- Transaction record, immutable once created. -/
structure Transaction where
  id : String
  accountId : String
  categoryId : String
  amount : Rat
  memo : String
  date : String
deriving DecidableEq, Repr

/-- The full application state: the unit of persistence and aggregation. -/
structure Snapshot where
  accounts : List Account
  categories : List Category
  transactions : List Transaction
deriving DecidableEq, Repr

/-- The default state loadData falls back to. -/
def emptySnapshot : Snapshot :=
  { accounts := [], categories := [], transactions := [] }

/-- Input to addTransaction (the tx object built by the transaction forms). -/
structure TxInput where
  accountId : String
  categoryId : String
  amount : Rat
  memo : String
deriving DecidableEq, Repr

/-- Model of the JS String.prototype.trim used by the guards: drop leading
and trailing whitespace characters. -/
def jsTrim (s : String) : String :=
  String.mk (((s.data.dropWhile Char.isWhitespace).reverse.dropWhile Char.isWhitespace).reverse)

/-- Source lines 129-135: addAccount(name, balance).  The guard
if (!name.trim()) return; makes the operation a no-op exactly when the
trimmed name is empty; otherwise a new account with the freshly generated
id and the parsed balance is appended. -/
def addAccount (d : Snapshot) (name : String) (balance : Rat) (newId : String) : Snapshot :=
  if jsTrim name = "" then d
  else { d with accounts := d.accounts ++ [{ id := newId, name := name, balance := balance }] }

/-- Source lines 136-142: addCategory(name), same empty-name guard,
appends a category with budgeted = 0. -/
def addCategory (d : Snapshot) (name : String) (newId : String) : Snapshot :=
  if jsTrim name = "" then d
  else { d with categories := d.categories ++ [{ id := newId, name := name, budgeted := 0 }] }

/-- Source lines 143-150: budgetCategory(id, delta) adds delta to the
matching category's budgeted total. -/
def budgetCategory (d : Snapshot) (catId : String) (delta : Rat) : Snapshot :=
  { d with categories := d.categories.map fun c =>
      if c.id = catId then { c with budgeted := c.budgeted + delta } else c }

/-- Source lines 151-159: addTransaction(tx) appends the transaction with a
generated id and timestamp, and adds tx.amount to the balance of every
account whose id equals tx.accountId. -/
def addTransaction (d : Snapshot) (tx : TxInput) (newId : String) (date : String) : Snapshot :=
  { d with
    transactions := d.transactions ++
      [{ id := newId, accountId := tx.accountId, categoryId := tx.categoryId,
         amount := tx.amount, memo := tx.memo, date := date }],
    accounts := d.accounts.map fun a =>
      if a.id = tx.accountId then { a with balance := a.balance + tx.amount } else a }

/-- Source lines 161-163: spendingInCategory(catId), the signed sum of
amounts of transactions in the category (reduce with initial value 0). -/
def spendingInCategory (d : Snapshot) (catId : String) : Rat :=
  (d.transactions.filter fun tx => tx.categoryId == catId).foldl (fun s t => s + t.amount) 0

/-- Source line 164: availableInCategory(cat) = cat.budgeted + spendingInCategory(cat.id). -/
def availableInCategory (d : Snapshot) (cat : Category) : Rat :=
  cat.budgeted + spendingInCategory d cat.id

/-- Source lines 276-278 and 286-288 (Dashboard): the absolute spending of a
category, i.e. the sum of Math.abs(amount) over its transactions with
negative amount. -/
def absSpending (d : Snapshot) (catId : String) : Rat :=
  (d.transactions.filter fun tx => tx.categoryId == catId && decide (tx.amount < 0)).foldl
    (fun s t => s + |t.amount|) 0

/-- One entry of the chart data built on source lines 275-283. -/
structure ChartEntry where
  label : String
  value : Rat
deriving DecidableEq, Repr

/-- The descending-by-value order used by the JS comparator
(a, b) => b.value - a.value: a precedes b when the comparator is ≤ 0. -/
def chartGE (a b : ChartEntry) : Prop := b.value ≤ a.value

instance : DecidableRel chartGE := fun a b => inferInstanceAs (Decidable (b.value ≤ a.value))

instance : IsTotal ChartEntry chartGE := ⟨fun a b => le_total b.value a.value⟩

instance : IsTrans ChartEntry chartGE := ⟨fun _ _ _ h1 h2 => le_trans h2 h1⟩

/-- Source lines 275-283 (Dashboard): spendingByCategory maps each category
to a label/value entry with its absolute negative-transaction total, drops
entries with value 0 (the filter keeps value > 0), and sorts descending by
value with a stable sort. -/
def spendingByCategory (d : Snapshot) : List ChartEntry :=
  List.insertionSort chartGE
    ((d.categories.map fun cat => ChartEntry.mk cat.name (absSpending d cat.id)).filter
      fun item => decide (0 < item.value))

/-- One entry of budgetStatus (source lines 285-296): the category fields
spread together with the computed spending, available and status. -/
structure BudgetEntry where
  id : String
  name : String
  budgeted : Rat
  spending : Rat
  available : Rat
  status : String
deriving DecidableEq, Repr

/-- Source lines 285-296 (Dashboard): budgetStatus attaches to each category
its absolute negative spending, available = budgeted + spending, and
status = available >= 0 ? good : over. -/
def budgetStatus (d : Snapshot) : List BudgetEntry :=
  d.categories.map fun cat =>
    let spending := absSpending d cat.id
    let available := cat.budgeted + spending
    { id := cat.id, name := cat.name, budgeted := cat.budgeted,
      spending := spending, available := available,
      status := if 0 ≤ available then "good" else "over" }

/-- Source line 272 (Dashboard): the month-over-month spending change in
percent, guarded so that a non-positive previous total yields 0. -/
def spendingChangePercent (current previous : Rat) : Rat :=
  if 0 < previous then (current - previous) / previous * 100 else 0

/- ### Generic helpers about the fold-based sums -/

/-- The signed reduce of the source is the sum of the mapped amounts. -/
theorem foldl_add_amount (l : List Transaction) (init : Rat) :
    l.foldl (fun s t => s + t.amount) init = init + (l.map Transaction.amount).sum := by
  induction l generalizing init with
  | nil => simp
  | cons t l ih => simp [List.foldl_cons, ih, add_assoc]

/-- The absolute-value reduce of the source is the sum of mapped absolute values. -/
theorem foldl_add_abs (l : List Transaction) (init : Rat) :
    l.foldl (fun s t => s + |t.amount|) init = init + (l.map fun t => |t.amount|).sum := by
  induction l generalizing init with
  | nil => simp
  | cons t l ih => simp [List.foldl_cons, ih, add_assoc]

/-- spendingInCategory as a mapped sum. -/
theorem spendingInCategory_eq_sum (d : Snapshot) (catId : String) :
    spendingInCategory d catId =
      ((d.transactions.filter fun tx => tx.categoryId == catId).map Transaction.amount).sum := by
  simp [spendingInCategory, foldl_add_amount]

/-- absSpending as a mapped sum of absolute values. -/
theorem absSpending_eq_sum (d : Snapshot) (catId : String) :
    absSpending d catId =
      ((d.transactions.filter fun tx => tx.categoryId == catId && decide (tx.amount < 0)).map
        fun t => |t.amount|).sum := by
  simp [absSpending, foldl_add_abs]

/-- absSpending is a sum of absolute values, hence nonnegative. -/
theorem absSpending_nonneg (d : Snapshot) (catId : String) : 0 ≤ absSpending d catId := by
  rw [absSpending_eq_sum]
  apply List.sum_nonneg
  intro x hx
  obtain ⟨t, _, rfl⟩ := List.mem_map.mp hx
  exact abs_nonneg _

/- ### C3: the addAccount guard and append behaviour -/

/-- C3: addAccount with an empty or whitespace-only name (trimmed name
empty) is a no-op; with any other name it appends exactly one new account
carrying the given opening balance, and leaves categories and transactions
unchanged. -/
theorem addAccount_spec (d : Snapshot) (name : String) (balance : Rat) (newId : String) :
    (jsTrim name = "" → addAccount d name balance newId = d) ∧
    (jsTrim name ≠ "" →
      (addAccount d name balance newId).accounts =
        d.accounts ++ [{ id := newId, name := name, balance := balance }] ∧
      (addAccount d name balance newId).accounts.length = d.accounts.length + 1 ∧
      (addAccount d name balance newId).categories = d.categories ∧
      (addAccount d name balance newId).transactions = d.transactions) := by
  constructor
  · intro h
    simp [addAccount, h]
  · intro h
    simp [addAccount, h]

/-- Witness for C3 at concrete inputs: a whitespace-only name is a no-op and
a real name appends the account. -/
theorem addAccount_spec_witness :
    addAccount emptySnapshot "   " 5 "a1" = emptySnapshot ∧
    (addAccount emptySnapshot "Checking" 100 "a1").accounts =
      [{ id := "a1", name := "Checking", balance := 100 }] := by
  constructor
  · exact (addAccount_spec emptySnapshot "   " 5 "a1").1 (by decide)
  · have h := ((addAccount_spec emptySnapshot "Checking" 100 "a1").2 (by decide)).1
    simpa [emptySnapshot] using h

/- ### C4: availableInCategory and the signed category sum -/

/-- C4: availableInCategory is exactly budgeted plus spendingInCategory,
and spendingInCategory is the signed sum (no absolute value) of the
amounts of the transactions with the given categoryId. -/
theorem availableInCategory_spec (d : Snapshot) (cat : Category) :
    availableInCategory d cat = cat.budgeted + spendingInCategory d cat.id ∧
    ∀ catId : String,
      spendingInCategory d catId =
        ((d.transactions.filter fun tx => tx.categoryId == catId).map Transaction.amount).sum := by
  exact ⟨rfl, fun catId => spendingInCategory_eq_sum d catId⟩

/- ### C6: the guarded percent change -/

/-- C6: spendingChangePercent divides only when the previous total is
positive and returns 0 otherwise; in particular both arguments zero give 0. -/
theorem spendingChangePercent_spec :
    (∀ current previous : Rat, 0 < previous →
      spendingChangePercent current previous = (current - previous) / previous * 100) ∧
    (∀ current previous : Rat, ¬ 0 < previous → spendingChangePercent current previous = 0) ∧
    spendingChangePercent 0 0 = 0 := by
  refine ⟨fun c p hp => ?_, fun c p hp => ?_, ?_⟩
  · simp [spendingChangePercent, hp]
  · simp [spendingChangePercent, hp]
  · simp [spendingChangePercent]

/-- Witness for C6 at concrete inputs: a genuine division and a guarded zero. -/
theorem spendingChangePercent_spec_witness :
    spendingChangePercent 30 20 = (30 - 20) / 20 * 100 ∧ spendingChangePercent 7 0 = 0 := by
  constructor
  · exact spendingChangePercent_spec.1 30 20 (by norm_num)
  · exact spendingChangePercent_spec.2.1 7 0 (by norm_num)

/- ### C2: transactions with a dangling accountId -/

/-- C2: addTransaction whose accountId matches no account still appends the
transaction, and leaves every account (and the categories) unchanged. -/
theorem addTransaction_dangling (d : Snapshot) (tx : TxInput) (newId date : String)
    (h : ∀ a ∈ d.accounts, a.id ≠ tx.accountId) :
    (addTransaction d tx newId date).accounts = d.accounts ∧
    (addTransaction d tx newId date).transactions = d.transactions ++
      [{ id := newId, accountId := tx.accountId, categoryId := tx.categoryId,
         amount := tx.amount, memo := tx.memo, date := date }] ∧
    (addTransaction d tx newId date).categories = d.categories := by
  refine ⟨?_, rfl, rfl⟩
  show d.accounts.map _ = d.accounts
  have hcongr : d.accounts.map
      (fun a => if a.id = tx.accountId then { a with balance := a.balance + tx.amount } else a) =
      d.accounts.map id := by
    apply List.map_congr_left
    intro a ha
    simp [h a ha]
  simpa using hcongr

/-- Witness for C2: a concrete snapshot with one account and a transaction
aimed at an id that matches nothing. -/
theorem addTransaction_dangling_witness :
    (addTransaction
        { accounts := [{ id := "a1", name := "Checking", balance := 100 }],
          categories := [], transactions := [] }
        { accountId := "ghost", categoryId := "c1", amount := -20, memo := "m" }
        "t1" "2024-01-01").accounts = [{ id := "a1", name := "Checking", balance := 100 }] :=
  (addTransaction_dangling
    { accounts := [{ id := "a1", name := "Checking", balance := 100 }],
      categories := [], transactions := [] }
    { accountId := "ghost", categoryId := "c1", amount := -20, memo := "m" }
    "t1" "2024-01-01" (by decide)).1

/- ### C5: the category spending breakdown -/

/-- Snapshot for the 30/10 breakdown scenario of the spec. -/
def breakdownDemo : Snapshot :=
  { accounts := [],
    categories := [{ id := "c1", name := "Gas", budgeted := 0 },
                   { id := "c2", name := "Dining", budgeted := 0 }],
    transactions :=
      [{ id := "t1", accountId := "a1", categoryId := "c1", amount := -10,
         memo := "", date := "2024-01-02" },
       { id := "t2", accountId := "a1", categoryId := "c2", amount := -30,
         memo := "", date := "2024-01-03" }] }

/-- C5: spendingByCategory is, up to the descending ordering, the list of
one entry per category holding its absolute negative-transaction total with
the zero-valued entries removed; the output is sorted descending by value;
and on two categories with totals 30 and 10 the 30-entry comes first. -/
theorem spendingByCategory_spec :
    (∀ d : Snapshot,
      List.Perm (spendingByCategory d)
        ((d.categories.map fun cat => ChartEntry.mk cat.name (absSpending d cat.id)).filter
          fun item => decide (0 < item.value))) ∧
    (∀ d : Snapshot, List.Sorted chartGE (spendingByCategory d)) ∧
    (∀ d : Snapshot, ∀ catId : String,
      absSpending d catId =
        ((d.transactions.filter fun tx => tx.categoryId == catId && decide (tx.amount < 0)).map
          fun t => |t.amount|).sum) ∧
    spendingByCategory breakdownDemo =
      [{ label := "Dining", value := 30 }, { label := "Gas", value := 10 }] := by
  refine ⟨fun d => ?_, fun d => ?_, fun d catId => absSpending_eq_sum d catId, ?_⟩
  · exact List.perm_insertionSort chartGE _
  · exact List.sorted_insertionSort chartGE _
  · norm_num [spendingByCategory, breakdownDemo, absSpending, chartGE,
      List.insertionSort, List.orderedInsert, List.filter, List.foldl]

/- ### C10: budgetStatus adds absolute spending, so only negative budgets go over -/

/-- C10: every budgetStatus entry carries the nonnegative absolute spending
of its category, available is budgeted plus that spending, a nonnegative
budgeted total always reports status good, and status over forces a
negative budgeted total. -/
theorem budgetStatus_spec (d : Snapshot) (e : BudgetEntry) (he : e ∈ budgetStatus d) :
    e.spending =
      ((d.transactions.filter fun tx => tx.categoryId == e.id && decide (tx.amount < 0)).map
        fun t => |t.amount|).sum ∧
    0 ≤ e.spending ∧
    e.available = e.budgeted + e.spending ∧
    (0 ≤ e.budgeted → e.status = "good" ∧ 0 ≤ e.available) ∧
    (e.status = "over" → e.budgeted < 0) := by
  obtain ⟨cat, hcat, rfl⟩ := List.mem_map.mp he
  refine ⟨absSpending_eq_sum d cat.id, absSpending_nonneg d cat.id, rfl, ?_, ?_⟩
  · intro hb
    have havail : 0 ≤ cat.budgeted + absSpending d cat.id :=
      add_nonneg hb (absSpending_nonneg d cat.id)
    constructor
    · simp [havail]
    · simpa using havail
  · intro hover
    by_contra hge
    push_neg at hge
    have havail : 0 ≤ cat.budgeted + absSpending d cat.id :=
      add_nonneg hge (absSpending_nonneg d cat.id)
    simp [havail] at hover

/-- Witness for C10: the single category of this snapshot has budgeted 50,
absolute spending 20 and status good. -/
theorem budgetStatus_spec_witness :
    0 ≤ (BudgetEntry.mk "c1" "Food" 50 20 70 "good").spending ∧
    (BudgetEntry.mk "c1" "Food" 50 20 70 "good").status = "good" := by
  have he : BudgetEntry.mk "c1" "Food" 50 20 70 "good" ∈ budgetStatus
      { accounts := [], categories := [{ id := "c1", name := "Food", budgeted := 50 }],
        transactions := [{ id := "t1", accountId := "a1", categoryId := "c1", amount := -20,
                           memo := "", date := "2024-01-02" }] } := by
    norm_num [budgetStatus, absSpending, List.filter, List.foldl]
  have h := budgetStatus_spec _ _ he
  exact ⟨h.2.1, (h.2.2.2.1 (by norm_num)).1⟩

/- ### The JSON layer -/

/-- JSON document trees, the values JSON.parse can produce and
JSON.stringify can consume.  An object is its field list in written order. -/
inductive Json where
  | null : Json
  | bool (b : Bool) : Json
  | num (q : Rat) : Json
  | str (s : String) : Json
  | arr (xs : List Json) : Json
  | obj (fields : List (String × Json)) : Json

/-- Reading a string-valued JS expression off a parsed value. -/
def jStr : Json → Option String
  | Json.str s => some s
  | _ => none

/-- Reading a number-valued JS expression off a parsed value. -/
def jNum : Json → Option Rat
  | Json.num q => some q
  | _ => none

/-- Reading an array-valued JS expression off a parsed value. -/
def jArr : Json → Option (List Json)
  | Json.arr xs => some xs
  | _ => none

/-- Property access on a parsed object: lookup of the field by name,
independent of the order the fields were written in. -/
def jGet (j : Json) (key : String) : Option Json :=
  match j with
  | Json.obj fields => (fields.find? fun kv => kv.1 == key).map (fun kv => kv.2)
  | _ => none

/-- The JSON document JSON.stringify produces for an account. -/
def encodeAccount (a : Account) : Json :=
  Json.obj [("id", Json.str a.id), ("name", Json.str a.name), ("balance", Json.num a.balance)]

/-- The JSON document JSON.stringify produces for a category. -/
def encodeCategory (c : Category) : Json :=
  Json.obj [("id", Json.str c.id), ("name", Json.str c.name), ("budgeted", Json.num c.budgeted)]

/-- The JSON document JSON.stringify produces for a transaction (key order
from the object spread in addTransaction). -/
def encodeTransaction (t : Transaction) : Json :=
  Json.obj [("accountId", Json.str t.accountId), ("categoryId", Json.str t.categoryId),
            ("amount", Json.num t.amount), ("memo", Json.str t.memo),
            ("id", Json.str t.id), ("date", Json.str t.date)]

/-- The JSON document JSON.stringify produces for a whole snapshot. -/
def encodeSnapshot (d : Snapshot) : Json :=
  Json.obj [("accounts", Json.arr (d.accounts.map encodeAccount)),
            ("categories", Json.arr (d.categories.map encodeCategory)),
            ("transactions", Json.arr (d.transactions.map encodeTransaction))]

/-- Element-wise reading of an array of parsed records. -/
def decodeList (dec : Json → Option α) : List Json → Option (List α)
  | [] => some []
  | j :: js => do
      let a ← dec j
      let as ← decodeList dec js
      pure (a :: as)

/-- Reading an account record back off a parsed document, by field name. -/
def decodeAccount (j : Json) : Option Account := do
  let i ← (jGet j "id").bind jStr
  let n ← (jGet j "name").bind jStr
  let b ← (jGet j "balance").bind jNum
  pure { id := i, name := n, balance := b }

/-- Reading a category record back off a parsed document, by field name. -/
def decodeCategory (j : Json) : Option Category := do
  let i ← (jGet j "id").bind jStr
  let n ← (jGet j "name").bind jStr
  let b ← (jGet j "budgeted").bind jNum
  pure { id := i, name := n, budgeted := b }

/-- Reading a transaction record back off a parsed document, by field name. -/
def decodeTransaction (j : Json) : Option Transaction := do
  let i ← (jGet j "id").bind jStr
  let acc ← (jGet j "accountId").bind jStr
  let cat ← (jGet j "categoryId").bind jStr
  let amt ← (jGet j "amount").bind jNum
  let memo ← (jGet j "memo").bind jStr
  let date ← (jGet j "date").bind jStr
  pure { id := i, accountId := acc, categoryId := cat, amount := amt, memo := memo, date := date }

/-- Reading a whole snapshot back off a parsed document: the three
collections are fetched by name and read element-wise, exactly the accesses
the application performs on a loaded document. -/
def decodeSnapshot (j : Json) : Option Snapshot := do
  let accs ← (jGet j "accounts").bind jArr
  let cats ← (jGet j "categories").bind jArr
  let txs ← (jGet j "transactions").bind jArr
  let accounts ← decodeList decodeAccount accs
  let categories ← decodeList decodeCategory cats
  let transactions ← decodeList decodeTransaction txs
  pure { accounts := accounts, categories := categories, transactions := transactions }

/-- Source lines 23-25: saveData writes the stringified snapshot into the
store; the store content is the parse outcome of the stored text. -/
def saveData (d : Snapshot) : Option Json :=
  some (encodeSnapshot d)

/-- Source lines 12-22: loadData returns the parsed stored document when
there is one, and the default empty document otherwise. -/
def loadData (store : Option Json) : Json :=
  match store with
  | some j => j
  | none => encodeSnapshot emptySnapshot

/-- Decoding an encoded list recovers the list, element by element. -/
theorem decodeList_encode (dec : Json → Option α) (enc : α → Json)
    (h : ∀ a, dec (enc a) = some a) : ∀ l : List α, decodeList dec (l.map enc) = some l := by
  intro l
  induction l with
  | nil => rfl
  | cons a l ih => simp [decodeList, h, ih]

/-- Decoding an encoded account recovers it. -/
theorem decodeAccount_encode (a : Account) : decodeAccount (encodeAccount a) = some a := rfl

/-- Decoding an encoded category recovers it. -/
theorem decodeCategory_encode (c : Category) : decodeCategory (encodeCategory c) = some c := rfl

/-- Decoding an encoded transaction recovers it. -/
theorem decodeTransaction_encode (t : Transaction) :
    decodeTransaction (encodeTransaction t) = some t := rfl

/-- Decoding an encoded snapshot recovers it. -/
theorem decodeSnapshot_encode (d : Snapshot) : decodeSnapshot (encodeSnapshot d) = some d := by
  simp [decodeSnapshot, encodeSnapshot, jGet, jArr,
    decodeList_encode decodeAccount encodeAccount decodeAccount_encode,
    decodeList_encode decodeCategory encodeCategory decodeCategory_encode,
    decodeList_encode decodeTransaction encodeTransaction decodeTransaction_encode]

/- ### C7: the save/load round trip -/

/-- C7: loading right after saving yields the saved snapshot back, and the
decoding does not depend on the order of the document fields, shown here by
reading the same snapshot off a document with the top-level fields written
in the reverse order. -/
theorem load_save_roundtrip :
    (∀ d : Snapshot, decodeSnapshot (loadData (saveData d)) = some d) ∧
    (∀ d : Snapshot,
      decodeSnapshot (Json.obj
        [("transactions", Json.arr (d.transactions.map encodeTransaction)),
         ("categories", Json.arr (d.categories.map encodeCategory)),
         ("accounts", Json.arr (d.accounts.map encodeAccount))]) = some d) := by
  constructor
  · intro d
    exact decodeSnapshot_encode d
  · intro d
    simp [decodeSnapshot, jGet, jArr,
      decodeList_encode decodeAccount encodeAccount decodeAccount_encode,
      decodeList_encode decodeCategory encodeCategory decodeCategory_encode,
      decodeList_encode decodeTransaction encodeTransaction decodeTransaction_encode]

/- ### C8: import semantics -/

/-- Source lines 45-59: loadDataFromFile resolves with the parsed document
and rejects with the Invalid JSON file error when the file text does not
parse; the parse outcome of the uploaded text is an optional document. -/
def loadDataFromFile (parsed : Option Json) : Except String Json :=
  match parsed with
  | some j => Except.ok j
  | none => Except.error "Invalid JSON file"

/-- Source lines 86-99: handleFileUpload replaces the whole state with the
loaded document on success, and on failure keeps the state and surfaces the
alert text.  The result is the new state paired with the optional alert. -/
def handleFileUpload (data : Json) (parsed : Option Json) : Json × Option String :=
  match loadDataFromFile parsed with
  | Except.ok newData => (newData, none)
  | Except.error msg => (data, some ("Error loading file: " ++ msg))

/-- C8: an unparseable upload signals the Invalid JSON file error and leaves
the state untouched; a parseable upload replaces the entire state with the
parsed document, with no merging; in particular uploading the document of
the empty snapshot makes the state read back as exactly that snapshot. -/
theorem import_spec :
    (∀ data : Json, handleFileUpload data none =
      (data, some "Error loading file: Invalid JSON file")) ∧
    (∀ data j : Json, handleFileUpload data (some j) = (j, none)) ∧
    (∀ data : Json,
      decodeSnapshot (handleFileUpload data (some (encodeSnapshot emptySnapshot))).1 =
        some emptySnapshot) := by
  refine ⟨fun data => rfl, fun data j => rfl, fun data => ?_⟩
  exact decodeSnapshot_encode emptySnapshot

/- ### Operation sequences over the domain store -/

/-- One user-level mutation of the domain store.  The id that genId would
produce (and the timestamp for a transaction) is carried by the operation,
since genId is random. -/
inductive Op where
  | addAccount (name : String) (balance : Rat) (newId : String) : Op
  | addCategory (name : String) (newId : String) : Op
  | budgetCategory (catId : String) (delta : Rat) : Op
  | addTransaction (tx : TxInput) (newId : String) (date : String) : Op
deriving DecidableEq, Repr

/-- Applying one operation to a snapshot. -/
def applyOp (d : Snapshot) : Op → Snapshot
  | Op.addAccount name balance i => addAccount d name balance i
  | Op.addCategory name i => addCategory d name i
  | Op.budgetCategory catId delta => budgetCategory d catId delta
  | Op.addTransaction tx i date => addTransaction d tx i date

/-- Running a sequence of operations left to right. -/
def runOps (d : Snapshot) (ops : List Op) : Snapshot :=
  ops.foldl applyOp d

/-- Every id-valued string occurring anywhere in a snapshot. -/
def usedIds (d : Snapshot) : List String :=
  d.accounts.map Account.id ++ d.categories.map Category.id ++
    d.transactions.map Transaction.id ++ d.transactions.map Transaction.accountId ++
    d.transactions.map Transaction.categoryId

/-- An operation is fresh for a snapshot when the id it generates does not
occur anywhere in the snapshot yet; this is what genId is meant to deliver. -/
def opFresh (d : Snapshot) : Op → Prop
  | Op.addAccount _ _ i => i ∉ usedIds d
  | Op.addCategory _ i => i ∉ usedIds d
  | Op.budgetCategory _ _ => True
  | Op.addTransaction _ i _ => i ∉ usedIds d

instance (d : Snapshot) (op : Op) : Decidable (opFresh d op) :=
  match op with
  | Op.addAccount _ _ i => inferInstanceAs (Decidable (i ∉ usedIds d))
  | Op.addCategory _ i => inferInstanceAs (Decidable (i ∉ usedIds d))
  | Op.budgetCategory _ _ => inferInstanceAs (Decidable True)
  | Op.addTransaction _ i _ => inferInstanceAs (Decidable (i ∉ usedIds d))

/-- A valid run of operations: every generated id is fresh at its time. -/
def FreshSeq : Snapshot → List Op → Prop
  | _, [] => True
  | d, op :: ops => opFresh d op ∧ FreshSeq (applyOp d op) ops

instance FreshSeq.decidable : (d : Snapshot) → (ops : List Op) → Decidable (FreshSeq d ops)
  | _, [] => inferInstanceAs (Decidable True)
  | d, op :: ops =>
      haveI := FreshSeq.decidable (applyOp d op) ops
      inferInstanceAs (Decidable (opFresh d op ∧ FreshSeq (applyOp d op) ops))

/-- The signed total of the transactions referencing an account id. -/
def txSum (txs : List Transaction) (accId : String) : Rat :=
  ((txs.filter fun t => t.accountId == accId).map Transaction.amount).sum

/-- The reconciliation invariant: every stored balance is the account's
opening balance plus the signed total of the transactions referencing it. -/
def AccountInv (d : Snapshot) (opening : String → Rat) : Prop :=
  ∀ a ∈ d.accounts, a.balance = opening a.id + txSum d.transactions a.id

/-- How one operation updates the opening-balance ledger: a successful
addAccount records the new account's opening balance under its id. -/
def openingStep (opening : String → Rat) : Op → (String → Rat)
  | Op.addAccount name balance i =>
      if jsTrim name = "" then opening else fun x => if x = i then balance else opening x
  | _ => opening

/-- The opening-balance ledger after a run of operations. -/
def openingAfter (opening : String → Rat) (ops : List Op) : String → Rat :=
  ops.foldl openingStep opening

/-- Appending one transaction adds its amount to the totals of exactly the
account id it references. -/
theorem txSum_append (txs : List Transaction) (t : Transaction) (accId : String) :
    txSum (txs ++ [t]) accId =
      txSum txs accId + (if t.accountId = accId then t.amount else 0) := by
  by_cases h : t.accountId = accId <;>
    simp [txSum, List.filter_append, h]

/-- An id referenced by no transaction has total 0. -/
theorem txSum_eq_zero (txs : List Transaction) (accId : String)
    (h : ∀ t ∈ txs, t.accountId ≠ accId) : txSum txs accId = 0 := by
  have hnil : txs.filter (fun t => t.accountId == accId) = [] := by
    apply List.filter_eq_nil_iff.mpr
    intro t ht
    simp [h t ht]
  simp [txSum, hnil]

/-- The id of a stored account occurs in usedIds. -/
theorem account_id_mem_usedIds (d : Snapshot) (a : Account) (ha : a ∈ d.accounts) :
    a.id ∈ usedIds d := by
  unfold usedIds
  exact List.mem_append_left _ (List.mem_append_left _ (List.mem_append_left _
    (List.mem_append_left _ (List.mem_map_of_mem Account.id ha))))

/-- The id of a stored category occurs in usedIds. -/
theorem category_id_mem_usedIds (d : Snapshot) (c : Category) (hc : c ∈ d.categories) :
    c.id ∈ usedIds d := by
  unfold usedIds
  exact List.mem_append_left _ (List.mem_append_left _ (List.mem_append_left _
    (List.mem_append_right _ (List.mem_map_of_mem Category.id hc))))

/-- The id of a stored transaction occurs in usedIds. -/
theorem transaction_id_mem_usedIds (d : Snapshot) (t : Transaction) (ht : t ∈ d.transactions) :
    t.id ∈ usedIds d := by
  unfold usedIds
  exact List.mem_append_left _ (List.mem_append_left _
    (List.mem_append_right _ (List.mem_map_of_mem Transaction.id ht)))

/-- The accountId referenced by a stored transaction occurs in usedIds. -/
theorem transaction_accountId_mem_usedIds (d : Snapshot) (t : Transaction)
    (ht : t ∈ d.transactions) : t.accountId ∈ usedIds d := by
  unfold usedIds
  exact List.mem_append_left _
    (List.mem_append_right _ (List.mem_map_of_mem Transaction.accountId ht))

/-- Transport of the reconciliation invariant along equal account and
transaction lists. -/
theorem AccountInv.congr_lists {d d' : Snapshot} {opening : String → Rat}
    (hacc : d'.accounts = d.accounts) (htx : d'.transactions = d.transactions)
    (h : AccountInv d opening) : AccountInv d' opening := by
  intro a ha
  rw [htx]
  exact h a (hacc ▸ ha)

/-- One fresh operation preserves the reconciliation invariant, with the
opening ledger updated accordingly. -/
theorem applyOp_inv (d : Snapshot) (opening : String → Rat) (op : Op)
    (hf : opFresh d op) (hinv : AccountInv d opening) :
    AccountInv (applyOp d op) (openingStep opening op) := by
  cases op with
  | addAccount name balance i =>
    have hi : i ∉ usedIds d := hf
    by_cases hname : jsTrim name = ""
    · have hop : openingStep opening (Op.addAccount name balance i) = opening := by
        simp [openingStep, hname]
      rw [hop]
      exact AccountInv.congr_lists (by simp [applyOp, addAccount, hname])
        (by simp [applyOp, addAccount, hname]) hinv
    · have haccs : (applyOp d (Op.addAccount name balance i)).accounts =
          d.accounts ++ [{ id := i, name := name, balance := balance }] := by
        simp [applyOp, addAccount, hname]
      have htxs : (applyOp d (Op.addAccount name balance i)).transactions =
          d.transactions := by
        simp [applyOp, addAccount, hname]
      have hop : openingStep opening (Op.addAccount name balance i) =
          fun x => if x = i then balance else opening x := by
        simp [openingStep, hname]
      intro a ha
      rw [haccs] at ha
      rw [htxs, hop]
      rcases List.mem_append.mp ha with hold | hnew
      · have hne : a.id ≠ i := by
          intro heq
          exact hi (heq ▸ account_id_mem_usedIds d a hold)
        dsimp only
        rw [if_neg hne]
        exact hinv a hold
      · have heq : a = { id := i, name := name, balance := balance } := by
          simpa using hnew
        subst heq
        have hzero : txSum d.transactions i = 0 := by
          apply txSum_eq_zero
          intro t ht habs
          exact hi (habs ▸ transaction_accountId_mem_usedIds d t ht)
        dsimp only
        rw [if_pos rfl, hzero, add_zero]
  | addCategory name i =>
    refine AccountInv.congr_lists ?_ ?_ hinv <;>
      · simp only [applyOp, addCategory]
        split <;> rfl
  | budgetCategory catId delta =>
    exact AccountInv.congr_lists rfl rfl hinv
  | addTransaction tx i date =>
    intro a ha
    have haccs : (applyOp d (Op.addTransaction tx i date)).accounts =
        d.accounts.map (fun b =>
          if b.id = tx.accountId then { b with balance := b.balance + tx.amount } else b) := rfl
    have htxs : (applyOp d (Op.addTransaction tx i date)).transactions =
        d.transactions ++
          [{ id := i, accountId := tx.accountId, categoryId := tx.categoryId,
             amount := tx.amount, memo := tx.memo, date := date }] := rfl
    have hop : openingStep opening (Op.addTransaction tx i date) = opening := rfl
    rw [haccs] at ha
    rw [htxs, hop, txSum_append]
    rcases List.mem_map.mp ha with ⟨a0, ha0, rfl⟩
    have h0 := hinv a0 ha0
    by_cases hid : a0.id = tx.accountId
    · rw [if_pos hid]
      dsimp only
      rw [hid] at h0 ⊢
      rw [if_pos rfl]
      linarith
    · rw [if_neg hid]
      dsimp only
      rw [if_neg (fun h => hid h.symm)]
      linarith

/- ### C1: the reconciliation invariant along every valid run -/

/-- C1: starting from any snapshot satisfying the reconciliation invariant
for some opening-balance ledger, every valid run of operations (each
generated id fresh, as genId is meant to deliver) reaches a snapshot in
which every stored balance equals the account's opening balance plus the
signed sum of the amounts of the transactions referencing it. -/
theorem balance_reconciliation (ops : List Op) :
    ∀ (init : Snapshot) (opening : String → Rat),
      FreshSeq init ops → AccountInv init opening →
      AccountInv (runOps init ops) (openingAfter opening ops) := by
  induction ops with
  | nil =>
    intro init opening _ h
    simpa [runOps, openingAfter] using h
  | cons op ops ih =>
    intro init opening hfresh hinv
    have hpair : opFresh init op ∧ FreshSeq (applyOp init op) ops := hfresh
    have hstep := applyOp_inv init opening op hpair.1 hinv
    have hrest := ih (applyOp init op) (openingStep opening op) hpair.2 hstep
    simpa [runOps, openingAfter, List.foldl_cons] using hrest

/-- Witness for C1: the spec scenario (Checking 100, Groceries, a -20
transaction) run from the empty snapshot. -/
theorem balance_reconciliation_witness :
    AccountInv
      (runOps emptySnapshot
        [Op.addAccount "Checking" 100 "a1", Op.addCategory "Groceries" "c1",
         Op.addTransaction (TxInput.mk "a1" "c1" (-20) "milk") "t1" "2024-01-05"])
      (openingAfter (fun _ => 0)
        [Op.addAccount "Checking" 100 "a1", Op.addCategory "Groceries" "c1",
         Op.addTransaction (TxInput.mk "a1" "c1" (-20) "milk") "t1" "2024-01-05"]) := by
  apply balance_reconciliation _ emptySnapshot (fun _ => 0)
  · decide
  · intro a ha
    simp [emptySnapshot] at ha

/- ### C9: ids within each collection -/

/-- The account ids of a snapshot, in storage order. -/
def accountIds (d : Snapshot) : List String := d.accounts.map Account.id

/-- The category ids of a snapshot, in storage order. -/
def categoryIds (d : Snapshot) : List String := d.categories.map Category.id

/-- The transaction ids of a snapshot, in storage order. -/
def transactionIds (d : Snapshot) : List String := d.transactions.map Transaction.id

/-- Unfolding a run one operation at a time. -/
theorem runOps_cons (d : Snapshot) (op : Op) (ops : List Op) :
    runOps d (op :: ops) = runOps (applyOp d op) ops := rfl

/-- An account id is a used id. -/
theorem mem_usedIds_of_mem_accountIds {d : Snapshot} {i : String} (h : i ∈ accountIds d) :
    i ∈ usedIds d := by
  obtain ⟨a, ha, rfl⟩ := List.mem_map.mp h
  exact account_id_mem_usedIds d a ha

/-- A category id is a used id. -/
theorem mem_usedIds_of_mem_categoryIds {d : Snapshot} {i : String} (h : i ∈ categoryIds d) :
    i ∈ usedIds d := by
  obtain ⟨c, hc, rfl⟩ := List.mem_map.mp h
  exact category_id_mem_usedIds d c hc

/-- A transaction id is a used id. -/
theorem mem_usedIds_of_mem_transactionIds {d : Snapshot} {i : String}
    (h : i ∈ transactionIds d) : i ∈ usedIds d := by
  obtain ⟨t, ht, rfl⟩ := List.mem_map.mp h
  exact transaction_id_mem_usedIds d t ht

/-- The balance update of addTransaction does not touch account ids. -/
theorem accountIds_map_update (d : Snapshot) (tx : TxInput) :
    ((d.accounts.map fun b =>
        if b.id = tx.accountId then { b with balance := b.balance + tx.amount } else b).map
      Account.id) = accountIds d := by
  rw [List.map_map]
  apply List.map_congr_left
  intro a _
  by_cases h : a.id = tx.accountId <;> simp [h, Function.comp]

/-- The budget update of budgetCategory does not touch category ids. -/
theorem categoryIds_map_update (d : Snapshot) (catId : String) (delta : Rat) :
    ((d.categories.map fun c =>
        if c.id = catId then { c with budgeted := c.budgeted + delta } else c).map
      Category.id) = categoryIds d := by
  rw [List.map_map]
  apply List.map_congr_left
  intro c _
  by_cases h : c.id = catId <;> simp [h, Function.comp]

/-- Appending a fresh element keeps a duplicate-free list duplicate-free. -/
theorem nodup_append_singleton {l : List String} {x : String} (h : l.Nodup) (hx : x ∉ l) :
    (l ++ [x]).Nodup := by
  rw [List.nodup_append]
  refine ⟨h, List.nodup_singleton x, fun y hy hmem => ?_⟩
  have hyx : y = x := by simpa using hmem
  exact hx (hyx ▸ hy)

/-- Every operation only extends each id sequence: existing ids keep their
position and value (id stability). -/
theorem applyOp_ids_extend (d : Snapshot) (op : Op) :
    accountIds d <+: accountIds (applyOp d op) ∧
    categoryIds d <+: categoryIds (applyOp d op) ∧
    transactionIds d <+: transactionIds (applyOp d op) := by
  cases op with
  | addAccount name b i =>
    by_cases hn : jsTrim name = ""
    · simp [applyOp, addAccount, hn]
    · refine ⟨?_, ?_, ?_⟩
      · have : accountIds (applyOp d (Op.addAccount name b i)) = accountIds d ++ [i] := by
          simp [applyOp, addAccount, hn, accountIds]
        rw [this]
        exact List.prefix_append _ _
      · have : categoryIds (applyOp d (Op.addAccount name b i)) = categoryIds d := by
          simp [applyOp, addAccount, hn, categoryIds]
        rw [this]
      · have : transactionIds (applyOp d (Op.addAccount name b i)) = transactionIds d := by
          simp [applyOp, addAccount, hn, transactionIds]
        rw [this]
  | addCategory name i =>
    by_cases hn : jsTrim name = ""
    · simp [applyOp, addCategory, hn]
    · refine ⟨?_, ?_, ?_⟩
      · have : accountIds (applyOp d (Op.addCategory name i)) = accountIds d := by
          simp [applyOp, addCategory, hn, accountIds]
        rw [this]
      · have : categoryIds (applyOp d (Op.addCategory name i)) = categoryIds d ++ [i] := by
          simp [applyOp, addCategory, hn, categoryIds]
        rw [this]
        exact List.prefix_append _ _
      · have : transactionIds (applyOp d (Op.addCategory name i)) = transactionIds d := by
          simp [applyOp, addCategory, hn, transactionIds]
        rw [this]
  | budgetCategory catId delta =>
    refine ⟨List.prefix_refl _, ?_, List.prefix_refl _⟩
    have : categoryIds (applyOp d (Op.budgetCategory catId delta)) = categoryIds d :=
      categoryIds_map_update d catId delta
    rw [this]
  | addTransaction tx i date =>
    refine ⟨?_, List.prefix_refl _, ?_⟩
    · have : accountIds (applyOp d (Op.addTransaction tx i date)) = accountIds d :=
        accountIds_map_update d tx
      rw [this]
    · have : transactionIds (applyOp d (Op.addTransaction tx i date)) =
          transactionIds d ++ [i] := by
        simp [applyOp, addTransaction, transactionIds]
      rw [this]
      exact List.prefix_append _ _

/-- A fresh operation preserves duplicate-freeness of all three id lists. -/
theorem applyOp_nodup (d : Snapshot) (op : Op) (hf : opFresh d op)
    (h : (accountIds d).Nodup ∧ (categoryIds d).Nodup ∧ (transactionIds d).Nodup) :
    (accountIds (applyOp d op)).Nodup ∧ (categoryIds (applyOp d op)).Nodup ∧
      (transactionIds (applyOp d op)).Nodup := by
  obtain ⟨h1, h2, h3⟩ := h
  cases op with
  | addAccount name b i =>
    have hi : i ∉ usedIds d := hf
    by_cases hn : jsTrim name = ""
    · simpa [applyOp, addAccount, hn] using ⟨h1, h2, h3⟩
    · refine ⟨?_, ?_, ?_⟩
      · have : accountIds (applyOp d (Op.addAccount name b i)) = accountIds d ++ [i] := by
          simp [applyOp, addAccount, hn, accountIds]
        rw [this]
        exact nodup_append_singleton h1 (fun hmem => hi (mem_usedIds_of_mem_accountIds hmem))
      · have : categoryIds (applyOp d (Op.addAccount name b i)) = categoryIds d := by
          simp [applyOp, addAccount, hn, categoryIds]
        rw [this]; exact h2
      · have : transactionIds (applyOp d (Op.addAccount name b i)) = transactionIds d := by
          simp [applyOp, addAccount, hn, transactionIds]
        rw [this]; exact h3
  | addCategory name i =>
    have hi : i ∉ usedIds d := hf
    by_cases hn : jsTrim name = ""
    · simpa [applyOp, addCategory, hn] using ⟨h1, h2, h3⟩
    · refine ⟨?_, ?_, ?_⟩
      · have : accountIds (applyOp d (Op.addCategory name i)) = accountIds d := by
          simp [applyOp, addCategory, hn, accountIds]
        rw [this]; exact h1
      · have : categoryIds (applyOp d (Op.addCategory name i)) = categoryIds d ++ [i] := by
          simp [applyOp, addCategory, hn, categoryIds]
        rw [this]
        exact nodup_append_singleton h2 (fun hmem => hi (mem_usedIds_of_mem_categoryIds hmem))
      · have : transactionIds (applyOp d (Op.addCategory name i)) = transactionIds d := by
          simp [applyOp, addCategory, hn, transactionIds]
        rw [this]; exact h3
  | budgetCategory catId delta =>
    refine ⟨h1, ?_, h3⟩
    rw [show categoryIds (applyOp d (Op.budgetCategory catId delta)) = categoryIds d from
      categoryIds_map_update d catId delta]
    exact h2
  | addTransaction tx i date =>
    have hi : i ∉ usedIds d := hf
    refine ⟨?_, h2, ?_⟩
    · rw [show accountIds (applyOp d (Op.addTransaction tx i date)) = accountIds d from
        accountIds_map_update d tx]
      exact h1
    · have : transactionIds (applyOp d (Op.addTransaction tx i date)) =
          transactionIds d ++ [i] := by
        simp [applyOp, addTransaction, transactionIds]
      rw [this]
      exact nodup_append_singleton h3 (fun hmem => hi (mem_usedIds_of_mem_transactionIds hmem))

/-- Counterexample to C9 as stated: genId is a random string generator with
no uniqueness guarantee, so a run in which two addAccount calls draw the
same id is reachable, and it leaves two accounts with equal ids. -/
theorem genId_collision_counterexample :
    ¬ (accountIds (runOps emptySnapshot
        [Op.addAccount "A" 0 "dup", Op.addAccount "B" 0 "dup"])).Nodup := by
  decide

/-- C9 amended: provided every generated id is fresh for the snapshot it is
added to, the ids within each collection stay pairwise distinct (when they
start distinct), and ids are stable: every operation only extends each
collection's id sequence, so existing ids are never changed. -/
theorem ids_unique_stable (ops : List Op) :
    ∀ init : Snapshot, FreshSeq init ops →
      (((accountIds init).Nodup ∧ (categoryIds init).Nodup ∧ (transactionIds init).Nodup) →
        ((accountIds (runOps init ops)).Nodup ∧ (categoryIds (runOps init ops)).Nodup ∧
          (transactionIds (runOps init ops)).Nodup)) ∧
      (accountIds init <+: accountIds (runOps init ops) ∧
        categoryIds init <+: categoryIds (runOps init ops) ∧
        transactionIds init <+: transactionIds (runOps init ops)) := by
  induction ops with
  | nil =>
    intro init _
    exact ⟨fun h => h, List.prefix_refl _, List.prefix_refl _, List.prefix_refl _⟩
  | cons op ops ih =>
    intro init hfresh
    have hpair : opFresh init op ∧ FreshSeq (applyOp init op) ops := hfresh
    have hrest := ih (applyOp init op) hpair.2
    rw [runOps_cons]
    refine ⟨fun h => hrest.1 (applyOp_nodup init op hpair.1 h), ?_⟩
    obtain ⟨e1, e2, e3⟩ := applyOp_ids_extend init op
    obtain ⟨f1, f2, f3⟩ := hrest.2
    exact ⟨e1.trans f1, e2.trans f2, e3.trans f3⟩

/-- Witness for the amended C9 on a concrete fresh run. -/
theorem ids_unique_stable_witness :
    (accountIds (runOps emptySnapshot
        [Op.addAccount "Checking" 100 "w1", Op.addCategory "Food" "w2",
         Op.addTransaction (TxInput.mk "w1" "w2" (-5) "coffee") "w3" "2024-02-02"])).Nodup ∧
    accountIds emptySnapshot <+: accountIds (runOps emptySnapshot
        [Op.addAccount "Checking" 100 "w1", Op.addCategory "Food" "w2",
         Op.addTransaction (TxInput.mk "w1" "w2" (-5) "coffee") "w3" "2024-02-02"]) := by
  have h := ids_unique_stable
    [Op.addAccount "Checking" 100 "w1", Op.addCategory "Food" "w2",
     Op.addTransaction (TxInput.mk "w1" "w2" (-5) "coffee") "w3" "2024-02-02"]
    emptySnapshot (by decide)
  exact ⟨(h.1 (by decide)).1, h.2.1⟩
